import Mathlib

/-!
Shallow embedding of the image-geometry utilities of `src/api/utils/utils.py`
(`feather_alpha`, lines 11-20, and `resize_to_box`, lines 25-57) of the
cutout repository, together with theorems settling the specification claims
about them.

Modelling conventions:
* A PIL RGBA image is a width, a height and a total pixel function; only the
  values at coordinates `x < width`, `y < height` are meaningful, and image
  equality is extensional equality on that rectangle (`Img.Equiv`).
* Python float arithmetic on the scale factor is modelled exactly by `ℚ`;
  Python's built-in `round` (round half to even) is `pyRound`.
* `Image.paste(im, pos, mask)` with an RGBA mask blends every band with the
  mask's alpha band using Pillow's `MULDIV255` integer arithmetic (Paste.c:
  `BLEND(mask, dst, src) = MULDIV255(dst, 255-mask) + MULDIV255(src, mask)`).
* `Image.resize` returns a copy of the image itself when the requested size
  equals the current size (the same-size shortcut in Pillow's
  `Image.resize`); for a genuine resample the pixel values produced by the
  LANCZOS filter are left abstract as a `resample` parameter, since no claim
  depends on them.
* The Python exceptions the code can actually raise are modelled with
  `Except`: `ZeroDivisionError` from `target_w / src_w` when the (padded)
  source has a zero dimension (lines 37/39), and `ValueError` from
  `Image.new("RGBA", (target_w, target_h))` when a target is negative
  (line 44).  They are checked in exactly the order the source reaches them.
-/

namespace Cutout

/-- One RGBA pixel; channels are bytes `0..255` in real images. -/
structure RGBA where
  r : Nat
  g : Nat
  b : Nat
  a : Nat
deriving DecidableEq

/-- A raster image: dimensions plus a total pixel function.  Pixels outside
`x < width`, `y < height` carry no meaning. -/
structure Img where
  width : Nat
  height : Nat
  px : Nat → Nat → RGBA

/-- The transparent black pixel `(0, 0, 0, 0)`. -/
def RGBA.clear : RGBA := ⟨0, 0, 0, 0⟩

/-- `Image.new("RGBA", (w, h), (0, 0, 0, 0))`: a fully transparent canvas. -/
def Img.new (w h : Nat) : Img := ⟨w, h, fun _ _ => RGBA.clear⟩

/-- Extensional equality of images: same dimensions and same pixels on the
meaningful rectangle. -/
def Img.Equiv (i j : Img) : Prop :=
  i.width = j.width ∧ i.height = j.height ∧
    ∀ x < i.width, ∀ y < i.height, i.px x y = j.px x y

/-- Python exceptions reachable from `resize_to_box`. -/
inductive PyErr where
  | zeroDivisionError
  | valueError
deriving DecidableEq

/-- Pillow's `MULDIV255(a, b, tmp)` from Paste.c:
`tmp = a*b + 128; ((tmp >> 8) + tmp) >> 8` — the exact integer form of
`round(a*b/255)` used when blending a paste with a mask. -/
def muldiv255 (a b : Nat) : Nat :=
  ((a * b + 128) / 256 + (a * b + 128)) / 256

/-- Pillow's `BLEND(mask, dst, src)` from Paste.c, one channel. -/
def blendChan (m d s : Nat) : Nat :=
  muldiv255 d (255 - m) + muldiv255 s m

/-- Blend a source pixel over a destination pixel using the source's own
alpha as the mask, per band (Pillow `paste_mask_RGBA`). -/
def blendPx (s d : RGBA) : RGBA :=
  ⟨blendChan s.a d.r s.r, blendChan s.a d.g s.g,
   blendChan s.a d.b s.b, blendChan s.a d.a s.a⟩

/-- `canvas.paste(img, (cx, cy), img)`: paste `img` with itself as the mask.
The canvas keeps its dimensions; inside the pasted rectangle every band is
blended with the mask's alpha band, outside it the canvas is untouched
(Pillow clips the rectangle to the canvas). -/
def pasteMask (canvas img : Img) (cx cy : Int) : Img :=
  ⟨canvas.width, canvas.height, fun x y =>
    if cx ≤ (x : Int) ∧ (x : Int) < cx + img.width ∧
       cy ≤ (y : Int) ∧ (y : Int) < cy + img.height then
      blendPx (img.px ((x : Int) - cx).toNat ((y : Int) - cy).toNat)
        (canvas.px x y)
    else canvas.px x y⟩

/-- `img.crop((l, u, r, b))`: the rectangle `[l, r) × [u, b)`; regions of the
box outside the source are filled with zeros (PIL semantics). -/
def cropImg (img : Img) (l u r b : Int) : Img :=
  ⟨(r - l).toNat, (b - u).toNat, fun x y =>
    if 0 ≤ l + (x : Int) ∧ l + (x : Int) < img.width ∧
       0 ≤ u + (y : Int) ∧ u + (y : Int) < img.height then
      img.px (l + (x : Int)).toNat (u + (y : Int)).toNat
    else RGBA.clear⟩

/-- `ImageOps.expand(img, border=pad, fill=(0,0,0,0))`: grow every side by
`pad` transparent pixels (utils.py line 32). -/
def expandBorder (img : Img) (pad : Nat) : Img :=
  ⟨img.width + 2 * pad, img.height + 2 * pad, fun x y =>
    if pad ≤ x ∧ x < pad + img.width ∧ pad ≤ y ∧ y < pad + img.height then
      img.px (x - pad) (y - pad)
    else RGBA.clear⟩

/-- Lines 31-32 of utils.py: `if pad > 0: img_rgba = ImageOps.expand(...)`. -/
def paddedImg (img : Img) (pad : Int) : Img :=
  if pad > 0 then expandBorder img pad.toNat else img

/-- `img.resize((w, h), Image.LANCZOS)` (line 42).  When the requested size
equals the current size Pillow returns a copy of the image unchanged; the
pixels of a genuine resample are abstract (`resample`). -/
def resizeImg (resample : Img → Nat → Nat → Nat → Nat → RGBA)
    (img : Img) (w h : Nat) : Img :=
  if img.width = w ∧ img.height = h then img else ⟨w, h, resample img w h⟩

/-- Python's built-in `round` on the exact rational value: round to the
nearest integer, ties to the even integer. -/
def pyRound (q : ℚ) : ℤ :=
  if q - ⌊q⌋ < 1 / 2 then ⌊q⌋
  else if 1 / 2 < q - ⌊q⌋ then ⌊q⌋ + 1
  else if ⌊q⌋ % 2 = 0 then ⌊q⌋ else ⌊q⌋ + 1

/-- Lines 36-39: the scale factor.  `max(target_w / src_w, target_h / src_h)`
for `"cover"`, else (any other mode string) `min(...)`. -/
def fitScale (src_w src_h : Nat) (tw th : Int) (mode : String) : ℚ :=
  if mode = "cover" then
    max ((tw : ℚ) / (src_w : ℚ)) ((th : ℚ) / (src_h : ℚ))
  else
    min ((tw : ℚ) / (src_w : ℚ)) ((th : ℚ) / (src_h : ℚ))

/-- Line 41: `max(1, int(round(src * scale)))`, one dimension. -/
def fitDim (src : Nat) (scale : ℚ) : ℤ :=
  max 1 (pyRound ((src : ℚ) * scale))

/-- `new_w` of line 41 for the (padded) source `img1`. -/
def fitNewW (img1 : Img) (tw th : Int) (mode : String) : ℤ :=
  fitDim img1.width (fitScale img1.width img1.height tw th mode)

/-- `new_h` of line 41 for the (padded) source `img1`. -/
def fitNewH (img1 : Img) (tw th : Int) (mode : String) : ℤ :=
  fitDim img1.height (fitScale img1.width img1.height tw th mode)

/-- Line 42: `img_resized = img_rgba.resize((new_w, new_h), Image.LANCZOS)`. -/
def fitResized (resample : Img → Nat → Nat → Nat → Nat → RGBA)
    (img1 : Img) (tw th : Int) (mode : String) : Img :=
  resizeImg resample img1 (fitNewW img1 tw th mode).toNat
    (fitNewH img1 tw th mode).toNat

/-- Lines 52-55, the `contain` (default) composition: transparent canvas of
the target size, the resized image pasted at
`((target_w - new_w) // 2, (target_h - new_h) // 2)` with itself as mask. -/
def containCompose (tw th new_w new_h : Int) (img_resized : Img) : Img :=
  pasteMask (Img.new tw.toNat th.toNat) img_resized
    ((tw - new_w).fdiv 2) ((th - new_h).fdiv 2)

/-- Lines 45-51, the `cover` composition: center-crop the resized image to at
most the target box, then center-paste it on the transparent canvas. -/
def coverCompose (tw th new_w new_h : Int) (img_resized : Img) : Img :=
  pasteMask (Img.new tw.toNat th.toNat)
    (cropImg img_resized
      (if new_w > tw then (new_w - tw).fdiv 2 else 0)
      (if new_h > th then (new_h - th).fdiv 2 else 0)
      ((if new_w > tw then (new_w - tw).fdiv 2 else 0) + min tw new_w)
      ((if new_h > th then (new_h - th).fdiv 2 else 0) + min th new_h))
    ((tw - (cropImg img_resized
      (if new_w > tw then (new_w - tw).fdiv 2 else 0)
      (if new_h > th then (new_h - th).fdiv 2 else 0)
      ((if new_w > tw then (new_w - tw).fdiv 2 else 0) + min tw new_w)
      ((if new_h > th then (new_h - th).fdiv 2 else 0) + min th new_h)).width).fdiv 2)
    ((th - (cropImg img_resized
      (if new_w > tw then (new_w - tw).fdiv 2 else 0)
      (if new_h > th then (new_h - th).fdiv 2 else 0)
      ((if new_w > tw then (new_w - tw).fdiv 2 else 0) + min tw new_w)
      ((if new_h > th then (new_h - th).fdiv 2 else 0) + min th new_h)).height).fdiv 2)

/-- `resize_to_box(img_rgba, target_w, target_h, mode, pad)`
(utils.py lines 25-57).  `not target_w or not target_h` is Python truthiness:
true exactly when the argument is `None` or `0`.  A zero-dimension padded
source raises `ZeroDivisionError` at the scale computation; a negative
target raises `ValueError` at `Image.new` (reached after the resize but
before either composition branch). -/
def resize_to_box (resample : Img → Nat → Nat → Nat → Nat → RGBA)
    (img_rgba : Img) (target_w target_h : Option Int) (mode : String)
    (pad : Int) : Except PyErr Img :=
  if target_w.getD 0 = 0 ∨ target_h.getD 0 = 0 then .ok img_rgba
  else if (paddedImg img_rgba pad).width = 0 ∨
      (paddedImg img_rgba pad).height = 0 then .error .zeroDivisionError
  else if target_w.getD 0 < 0 ∨ target_h.getD 0 < 0 then .error .valueError
  else if mode = "cover" then
    .ok (coverCompose (target_w.getD 0) (target_h.getD 0)
      (fitNewW (paddedImg img_rgba pad) (target_w.getD 0) (target_h.getD 0) mode)
      (fitNewH (paddedImg img_rgba pad) (target_w.getD 0) (target_h.getD 0) mode)
      (fitResized resample (paddedImg img_rgba pad) (target_w.getD 0)
        (target_h.getD 0) mode))
  else
    .ok (containCompose (target_w.getD 0) (target_h.getD 0)
      (fitNewW (paddedImg img_rgba pad) (target_w.getD 0) (target_h.getD 0) mode)
      (fitNewH (paddedImg img_rgba pad) (target_w.getD 0) (target_h.getD 0) mode)
      (fitResized resample (paddedImg img_rgba pad) (target_w.getD 0)
        (target_h.getD 0) mode))

/-- `feather_alpha(img_rgba, radius)` (utils.py lines 11-20): split the
(already RGBA) image into its four planes, Gaussian-blur the alpha plane
when `radius > 0` (the blur itself is abstract: `cv2.GaussianBlur` returns
an array of the same shape), and recombine with the original R, G, B. -/
def feather_alpha (blur : (Nat → Nat → Nat) → Nat → Nat → Nat)
    (img_rgba : Img) (radius : Int) : Img :=
  ⟨img_rgba.width, img_rgba.height, fun x y =>
    ⟨(img_rgba.px x y).r, (img_rgba.px x y).g, (img_rgba.px x y).b,
     (if radius > 0 then blur (fun u v => (img_rgba.px u v).a) else
       fun u v => (img_rgba.px u v).a) x y⟩⟩

/-! ### Helper lemmas about the rounding function -/

theorem pyRound_floor_or (q : ℚ) : pyRound q = ⌊q⌋ ∨ pyRound q = ⌊q⌋ + 1 := by
  unfold pyRound
  split
  · exact Or.inl rfl
  · split
    · exact Or.inr rfl
    · split
      · exact Or.inl rfl
      · exact Or.inr rfl

theorem le_pyRound {n : ℤ} {q : ℚ} (h : (n : ℚ) ≤ q) : n ≤ pyRound q := by
  have hf : n ≤ ⌊q⌋ := Int.le_floor.2 h
  rcases pyRound_floor_or q with h1 | h1 <;> omega

theorem pyRound_le {n : ℤ} {q : ℚ} (h : q ≤ (n : ℚ)) : pyRound q ≤ n := by
  have hf : ⌊q⌋ ≤ n := by
    have := Int.floor_le_floor h
    simpa using this
  unfold pyRound
  split
  · exact hf
  · have hb : (1 : ℚ) / 2 ≤ q - ⌊q⌋ := by exact not_lt.mp ‹¬q - ⌊q⌋ < 1 / 2›
    have hlt : (⌊q⌋ : ℚ) < (n : ℚ) := by linarith
    have hltz : ⌊q⌋ < n := by exact_mod_cast hlt
    split
    · omega
    · split <;> omega

theorem pyRound_intCast (n : ℤ) : pyRound (n : ℚ) = n := by
  unfold pyRound
  rw [Int.floor_intCast]
  simp

theorem pyRound_natCast (n : ℕ) : pyRound (n : ℚ) = n := by
  have := pyRound_intCast (n : ℤ)
  simpa using this

theorem pyRound_nearest (q : ℚ) (m : ℤ) : |q - pyRound q| ≤ |q - m| := by
  have hf : (⌊q⌋ : ℚ) ≤ q := Int.floor_le q
  have hq : q < ⌊q⌋ + 1 := Int.lt_floor_add_one q
  rcases le_or_lt m ⌊q⌋ with hm | hm
  · have hm' : (m : ℚ) ≤ (⌊q⌋ : ℚ) := by exact_mod_cast hm
    have habs : |q - m| = q - m := abs_of_nonneg (by linarith)
    unfold pyRound
    split
    · rw [abs_of_nonneg (by linarith)]; linarith
    · have hb : (1 : ℚ) / 2 ≤ q - ⌊q⌋ := by
        exact not_lt.mp ‹¬q - ⌊q⌋ < 1 / 2›
      split
      · rw [abs_of_nonpos (by push_cast; linarith)]
        push_cast
        linarith
      · split
        · rw [abs_of_nonneg (by linarith)]; linarith
        · rw [abs_of_nonpos (by push_cast; linarith)]
          push_cast
          linarith
  · have hm' : (⌊q⌋ : ℚ) + 1 ≤ (m : ℚ) := by exact_mod_cast hm
    have habs : |q - m| = m - q := by
      rw [abs_of_nonpos (by linarith)]; ring
    unfold pyRound
    split
    · rw [abs_of_nonneg (by linarith)]; linarith
    · have hb : (1 : ℚ) / 2 ≤ q - ⌊q⌋ := by
        exact not_lt.mp ‹¬q - ⌊q⌋ < 1 / 2›
      split
      · rw [abs_of_nonpos (by push_cast; linarith)]
        push_cast
        linarith
      · split
        · rw [abs_of_nonneg (by linarith)]; linarith
        · rw [abs_of_nonpos (by push_cast; linarith)]
          push_cast
          linarith

/-! ### Helper lemmas about the blend arithmetic -/

theorem muldiv255_255 {a : Nat} (h : a ≤ 255) : muldiv255 a 255 = a := by
  unfold muldiv255
  omega

theorem muldiv255_zero_right (a : Nat) : muldiv255 a 0 = 0 := by
  unfold muldiv255
  omega

theorem muldiv255_zero_left (b : Nat) : muldiv255 0 b = 0 := by
  unfold muldiv255
  omega

/-- Pasting a fully opaque byte-range pixel over the transparent canvas
leaves it unchanged; so does pasting the transparent black pixel. -/
theorem blendPx_clear_of_opaque_or_clear {p : RGBA}
    (h : p = RGBA.clear ∨
      (p.a = 255 ∧ p.r ≤ 255 ∧ p.g ≤ 255 ∧ p.b ≤ 255)) :
    blendPx p RGBA.clear = p := by
  rcases h with h | ⟨ha, hr, hg, hb⟩
  · subst h; rfl
  · unfold blendPx blendChan RGBA.clear
    rw [ha]
    simp only [Nat.sub_self, muldiv255_zero_left, muldiv255_zero_right,
      muldiv255_255 hr, muldiv255_255 hg, muldiv255_255 hb,
      muldiv255_255 (le_refl 255), Nat.zero_add]
    cases p
    simp_all

/-! ### Dimension lemmas -/

theorem pasteMask_width (canvas img : Img) (cx cy : Int) :
    (pasteMask canvas img cx cy).width = canvas.width := rfl

theorem pasteMask_height (canvas img : Img) (cx cy : Int) :
    (pasteMask canvas img cx cy).height = canvas.height := rfl

theorem resizeImg_width (resample : Img → Nat → Nat → Nat → Nat → RGBA)
    (img : Img) (w h : Nat) : (resizeImg resample img w h).width = w := by
  unfold resizeImg
  split
  · exact ‹img.width = w ∧ img.height = h›.1
  · rfl

theorem resizeImg_height (resample : Img → Nat → Nat → Nat → Nat → RGBA)
    (img : Img) (w h : Nat) : (resizeImg resample img w h).height = h := by
  unfold resizeImg
  split
  · exact ‹img.width = w ∧ img.height = h›.2
  · rfl

theorem paddedImg_width_pos (img : Img) (pad : Int) (h : 0 < img.width) :
    0 < (paddedImg img pad).width := by
  unfold paddedImg expandBorder
  split
  · show 0 < img.width + 2 * pad.toNat
    omega
  · exact h

theorem paddedImg_height_pos (img : Img) (pad : Int) (h : 0 < img.height) :
    0 < (paddedImg img pad).height := by
  unfold paddedImg expandBorder
  split
  · show 0 < img.height + 2 * pad.toNat
    omega
  · exact h

theorem containCompose_width (tw th new_w new_h : Int) (img_resized : Img) :
    (containCompose tw th new_w new_h img_resized).width = tw.toNat := rfl

theorem containCompose_height (tw th new_w new_h : Int) (img_resized : Img) :
    (containCompose tw th new_w new_h img_resized).height = th.toNat := rfl

theorem coverCompose_width (tw th new_w new_h : Int) (img_resized : Img) :
    (coverCompose tw th new_w new_h img_resized).width = tw.toNat := rfl

theorem coverCompose_height (tw th new_w new_h : Int) (img_resized : Img) :
    (coverCompose tw th new_w new_h img_resized).height = th.toNat := rfl

/-! ### Scale and size bounds -/

theorem one_le_fitDim (s : Nat) (sc : ℚ) : 1 ≤ fitDim s sc :=
  le_max_left _ _

theorem fitDim_le {s : Nat} {sc : ℚ} {n : ℤ} (h1 : 1 ≤ n)
    (h : (s : ℚ) * sc ≤ (n : ℚ)) : fitDim s sc ≤ n :=
  max_le h1 (pyRound_le h)

theorem le_fitDim {s : Nat} {sc : ℚ} {n : ℤ} (h : (n : ℚ) ≤ (s : ℚ) * sc) :
    n ≤ fitDim s sc :=
  le_trans (le_pyRound h) (le_max_right _ _)

theorem fitScale_cover (sw sh : Nat) (tw th : Int) :
    fitScale sw sh tw th "cover" =
      max ((tw : ℚ) / (sw : ℚ)) ((th : ℚ) / (sh : ℚ)) := by
  unfold fitScale
  rw [if_pos rfl]

theorem fitScale_of_ne {mode : String} (h : mode ≠ "cover") (sw sh : Nat)
    (tw th : Int) :
    fitScale sw sh tw th mode =
      min ((tw : ℚ) / (sw : ℚ)) ((th : ℚ) / (sh : ℚ)) := by
  unfold fitScale
  rw [if_neg h]

theorem tw_le_fitNewW_cover (img1 : Img) (tw th : Int)
    (hw : 0 < img1.width) :
    tw ≤ fitNewW img1 tw th "cover" := by
  unfold fitNewW
  apply le_fitDim
  rw [fitScale_cover]
  have hw' : (0 : ℚ) < (img1.width : ℚ) := by exact_mod_cast hw
  have h2 : (img1.width : ℚ) * ((tw : ℚ) / (img1.width : ℚ)) ≤
      (img1.width : ℚ) *
        max ((tw : ℚ) / (img1.width : ℚ)) ((th : ℚ) / (img1.height : ℚ)) :=
    mul_le_mul_of_nonneg_left (le_max_left _ _) (le_of_lt hw')
  have h3 : (img1.width : ℚ) * ((tw : ℚ) / (img1.width : ℚ)) = (tw : ℚ) := by
    field_simp
  linarith

theorem th_le_fitNewH_cover (img1 : Img) (tw th : Int)
    (hh : 0 < img1.height) :
    th ≤ fitNewH img1 tw th "cover" := by
  unfold fitNewH
  apply le_fitDim
  rw [fitScale_cover]
  have hh' : (0 : ℚ) < (img1.height : ℚ) := by exact_mod_cast hh
  have h2 : (img1.height : ℚ) * ((th : ℚ) / (img1.height : ℚ)) ≤
      (img1.height : ℚ) *
        max ((tw : ℚ) / (img1.width : ℚ)) ((th : ℚ) / (img1.height : ℚ)) :=
    mul_le_mul_of_nonneg_left (le_max_right _ _) (le_of_lt hh')
  have h3 : (img1.height : ℚ) * ((th : ℚ) / (img1.height : ℚ)) = (th : ℚ) := by
    field_simp
  linarith

theorem fitNewW_le_of_ne_cover (img1 : Img) (tw th : Int) {mode : String}
    (hmode : mode ≠ "cover") (hw : 0 < img1.width) (htw : 1 ≤ tw) :
    fitNewW img1 tw th mode ≤ tw := by
  unfold fitNewW
  apply fitDim_le htw
  rw [fitScale_of_ne hmode]
  have hw' : (0 : ℚ) < (img1.width : ℚ) := by exact_mod_cast hw
  have h1 : (img1.width : ℚ) * ((tw : ℚ) / (img1.width : ℚ)) = (tw : ℚ) := by
    field_simp
  calc (img1.width : ℚ) * min ((tw : ℚ) / (img1.width : ℚ)) ((th : ℚ) / (img1.height : ℚ))
      ≤ (img1.width : ℚ) * ((tw : ℚ) / (img1.width : ℚ)) :=
        mul_le_mul_of_nonneg_left (min_le_left _ _) (le_of_lt hw')
    _ = (tw : ℚ) := h1

theorem fitNewH_le_of_ne_cover (img1 : Img) (tw th : Int) {mode : String}
    (hmode : mode ≠ "cover") (hh : 0 < img1.height) (hth : 1 ≤ th) :
    fitNewH img1 tw th mode ≤ th := by
  unfold fitNewH
  apply fitDim_le hth
  rw [fitScale_of_ne hmode]
  have hh' : (0 : ℚ) < (img1.height : ℚ) := by exact_mod_cast hh
  have h1 : (img1.height : ℚ) * ((th : ℚ) / (img1.height : ℚ)) = (th : ℚ) := by
    field_simp
  calc (img1.height : ℚ) * min ((tw : ℚ) / (img1.width : ℚ)) ((th : ℚ) / (img1.height : ℚ))
      ≤ (img1.height : ℚ) * ((th : ℚ) / (img1.height : ℚ)) :=
        mul_le_mul_of_nonneg_left (min_le_right _ _) (le_of_lt hh')
    _ = (th : ℚ) := h1

/-! ### Concrete fixtures used by witnesses and counterexamples -/

/-- A concrete stand-in for the abstract LANCZOS resampler. -/
def wResample : Img → Nat → Nat → Nat → Nat → RGBA := fun _ _ _ _ _ => RGBA.clear

/-- A concrete stand-in for the abstract Gaussian blur on the alpha plane. -/
def wBlur : (Nat → Nat → Nat) → Nat → Nat → Nat := fun _ _ _ => 7

/-- A concrete opaque 2×2 source image. -/
def wSrc : Img := ⟨2, 2, fun _ _ => ⟨10, 20, 30, 255⟩⟩

/-! ### Claim theorems -/

/-- Claim C1: for a valid source and positive targets, in both `contain` and
`cover` mode and for every `pad ≥ 0`, any image returned by `resize_to_box`
is exactly `target_w × target_h`, and for a source with positive dimensions
an image is indeed returned. -/
theorem resize_to_box_exact_dims (resample : Img → Nat → Nat → Nat → Nat → RGBA)
    (img : Img) (tw th : Int) (mode : String) (pad : Int)
    (htw : 0 < tw) (hth : 0 < th)
    (hmode : mode = "contain" ∨ mode = "cover") (_hpad : 0 ≤ pad) :
    (∀ out, resize_to_box resample img (some tw) (some th) mode pad = .ok out →
      out.width = tw.toNat ∧ out.height = th.toNat) ∧
    (0 < img.width → 0 < img.height →
      ∃ out, resize_to_box resample img (some tw) (some th) mode pad = .ok out) := by
  constructor
  · intro out h
    unfold resize_to_box at h
    simp only [Option.getD_some] at h
    rw [if_neg (by omega)] at h
    split at h
    · exact absurd h (by simp)
    · rw [if_neg (by omega)] at h
      split at h
      · simp only [Except.ok.injEq] at h
        subst h
        exact ⟨coverCompose_width .., coverCompose_height ..⟩
      · simp only [Except.ok.injEq] at h
        subst h
        exact ⟨containCompose_width .., containCompose_height ..⟩
  · intro hw hh
    have h1 := paddedImg_width_pos img pad hw
    have h2 := paddedImg_height_pos img pad hh
    unfold resize_to_box
    simp only [Option.getD_some]
    rw [if_neg (by omega), if_neg (by omega), if_neg (by omega)]
    rcases hmode with hm | hm
    · subst hm
      rw [if_neg (by decide)]
      exact ⟨_, rfl⟩
    · subst hm
      rw [if_pos rfl]
      exact ⟨_, rfl⟩

/-- Witness for C1 at a concrete input: source 2×2, target 3×2, cover, pad 1. -/
theorem resize_to_box_exact_dims_witness :
    ∃ out, resize_to_box wResample wSrc (some 3) (some 2) "cover" 1 = .ok out ∧
      out.width = 3 ∧ out.height = 2 := by
  obtain ⟨h1, h2⟩ := resize_to_box_exact_dims wResample wSrc 3 2 "cover" 1
    (by decide) (by decide) (Or.inr rfl) (by decide)
  obtain ⟨out, hout⟩ := h2 (by decide) (by decide)
  exact ⟨out, hout, (h1 out hout).1, (h1 out hout).2⟩

/-- Claim C3: `feather_alpha` keeps the input's dimensions, its R, G, B
channels are bit-identical to the input's, only alpha may change, and with
`radius = 0` the image is returned unchanged.  `blur` is universally
quantified, so this holds whatever values `cv2.GaussianBlur` produces. -/
theorem feather_alpha_preserves_color (blur : (Nat → Nat → Nat) → Nat → Nat → Nat)
    (img : Img) (radius : Int) :
    (feather_alpha blur img radius).width = img.width ∧
    (feather_alpha blur img radius).height = img.height ∧
    (∀ x y, ((feather_alpha blur img radius).px x y).r = (img.px x y).r ∧
            ((feather_alpha blur img radius).px x y).g = (img.px x y).g ∧
            ((feather_alpha blur img radius).px x y).b = (img.px x y).b) ∧
    (radius = 0 → feather_alpha blur img radius = img) := by
  refine ⟨rfl, rfl, fun x y => ⟨rfl, rfl, rfl⟩, ?_⟩
  intro h
  subst h
  rfl

/-- Witness for C3: feathering the concrete source with radius 0 returns it
unchanged (for the concrete blur stand-in). -/
theorem feather_alpha_preserves_color_witness :
    feather_alpha wBlur wSrc 0 = wSrc :=
  (feather_alpha_preserves_color wBlur wSrc 0).2.2.2 rfl

/-- A concrete source with zero width (e.g. a 0×4 PIL image). -/
def wEmpty : Img := ⟨0, 4, fun _ _ => RGBA.clear⟩

/-- Claim C8: if `target_width` or `target_height` is `None` or `0`
(Python falsy), `resize_to_box` is a no-op returning the input unchanged. -/
theorem resize_to_box_noop_of_missing_target
    (resample : Img → Nat → Nat → Nat → Nat → RGBA) (img : Img)
    (target_w target_h : Option Int) (mode : String) (pad : Int)
    (h : target_w = none ∨ target_w = some 0 ∨
         target_h = none ∨ target_h = some 0) :
    resize_to_box resample img target_w target_h mode pad = .ok img := by
  rcases h with h | h | h | h <;> subst h <;> simp [resize_to_box]

/-- Witness for C8: absent width, concrete everything else. -/
theorem resize_to_box_noop_of_missing_target_witness :
    resize_to_box wResample wSrc none (some 5) "contain" 0 = .ok wSrc :=
  resize_to_box_noop_of_missing_target wResample wSrc none (some 5) "contain" 0
    (Or.inl rfl)

/-- Claim C10: with a missing/zero target, `pad > 0` has no effect: the
original, unpadded input is returned (the early return precedes the padding
step), although the padding expansion would have enlarged the image. -/
theorem resize_to_box_missing_target_ignores_pad
    (resample : Img → Nat → Nat → Nat → Nat → RGBA) (img : Img)
    (target_w target_h : Option Int) (mode : String) (pad : Int)
    (hpad : 0 < pad)
    (h : target_w = none ∨ target_w = some 0 ∨
         target_h = none ∨ target_h = some 0) :
    resize_to_box resample img target_w target_h mode pad = .ok img ∧
    img.width < (expandBorder img pad.toNat).width := by
  constructor
  · rcases h with h | h | h | h <;> subst h <;> simp [resize_to_box]
  · show img.width < img.width + 2 * pad.toNat
    omega

/-- Witness for C10: `pad = 10` with a zero target width. -/
theorem resize_to_box_missing_target_ignores_pad_witness :
    resize_to_box wResample wSrc (some 0) (some 5) "cover" 10 = .ok wSrc ∧
    wSrc.width < (expandBorder wSrc (10 : Int).toNat).width :=
  resize_to_box_missing_target_ignores_pad wResample wSrc (some 0) (some 5)
    "cover" 10 (by decide) (Or.inr (Or.inl rfl))

/-- Any mode other than `"cover"` computes the same scale as `"contain"`. -/
theorem fitNewW_eq_contain {mode : String} (h : mode ≠ "cover")
    (img1 : Img) (tw th : Int) :
    fitNewW img1 tw th mode = fitNewW img1 tw th "contain" := by
  unfold fitNewW
  rw [fitScale_of_ne h, fitScale_of_ne (by decide)]

/-- Any mode other than `"cover"` computes the same scale as `"contain"`. -/
theorem fitNewH_eq_contain {mode : String} (h : mode ≠ "cover")
    (img1 : Img) (tw th : Int) :
    fitNewH img1 tw th mode = fitNewH img1 tw th "contain" := by
  unfold fitNewH
  rw [fitScale_of_ne h, fitScale_of_ne (by decide)]

/-- Any mode other than `"cover"` resizes exactly as `"contain"` does. -/
theorem fitResized_eq_contain {mode : String} (h : mode ≠ "cover")
    (resample : Img → Nat → Nat → Nat → Nat → RGBA) (img1 : Img)
    (tw th : Int) :
    fitResized resample img1 tw th mode =
      fitResized resample img1 tw th "contain" := by
  unfold fitResized
  rw [fitNewW_eq_contain h, fitNewH_eq_contain h]

/-- Claim C5: an unrecognized mode string is not rejected; the call returns
exactly the same output as the same call with `mode = "contain"`. -/
theorem resize_to_box_unknown_mode_is_contain
    (resample : Img → Nat → Nat → Nat → Nat → RGBA) (img : Img)
    (target_w target_h : Option Int) (mode : String) (pad : Int)
    (_hc1 : mode ≠ "contain") (hc2 : mode ≠ "cover") :
    resize_to_box resample img target_w target_h mode pad =
      resize_to_box resample img target_w target_h "contain" pad := by
  unfold resize_to_box
  rw [if_neg hc2, if_neg (show ¬(("contain" : String) = "cover") by decide),
    fitNewW_eq_contain hc2, fitNewH_eq_contain hc2,
    fitResized_eq_contain hc2]

/-- Witness for C5 at mode `"stretch"`. -/
theorem resize_to_box_unknown_mode_is_contain_witness :
    resize_to_box wResample wSrc (some 3) (some 2) "stretch" 0 =
      resize_to_box wResample wSrc (some 3) (some 2) "contain" 0 :=
  resize_to_box_unknown_mode_is_contain wResample wSrc (some 3) (some 2)
    "stretch" 0 (by decide) (by decide)

/-- Counterexample to C4 as stated: with `target_w = 0` (which is `≤ 0`)
`resize_to_box` does not fail with any error — it returns the input
unchanged. -/
theorem resize_to_box_zero_target_no_error :
    resize_to_box wResample wSrc (some 0) (some 5) "contain" 0 = .ok wSrc := by
  simp [resize_to_box]

/-- A concrete source with zero height (e.g. a 4×0 PIL image). -/
def wEmptyH : Img := ⟨4, 0, fun _ _ => RGBA.clear⟩

/-- Claim C4, amended: the code has no `InvalidDimensionError` or
`InvalidImageError`.  A zero (or `None`) `target_w` or `target_h` makes the
call a no-op returning the input; a negative target in either position
(both targets nonzero, valid source) raises Python's `ValueError` from
`Image.new`, which the code only reaches after the resize; a source with
zero width or zero height (with `pad ≤ 0` and nonzero targets) raises
`ZeroDivisionError` at the scale computation. -/
theorem resize_to_box_invalid_inputs
    (resample : Img → Nat → Nat → Nat → Nat → RGBA) (img : Img)
    (tw th : Int) (mode : String) (pad : Int) :
    (∀ target_w target_h,
      (target_w = none ∨ target_w = some 0 ∨
       target_h = none ∨ target_h = some 0) →
      resize_to_box resample img target_w target_h mode pad = .ok img) ∧
    (0 < img.width → 0 < img.height → tw ≠ 0 → th ≠ 0 →
      (tw < 0 ∨ th < 0) →
      resize_to_box resample img (some tw) (some th) mode pad =
        .error .valueError) ∧
    ((img.width = 0 ∨ img.height = 0) → pad ≤ 0 → tw ≠ 0 → th ≠ 0 →
      resize_to_box resample img (some tw) (some th) mode pad =
        .error .zeroDivisionError) := by
  refine ⟨fun target_w target_h h => ?_, fun hw hh htw hth hneg => ?_,
    fun hw hpad htw hth => ?_⟩
  · rcases h with h | h | h | h <;> subst h <;> simp [resize_to_box]
  · have h1 := paddedImg_width_pos img pad hw
    have h2 := paddedImg_height_pos img pad hh
    unfold resize_to_box
    simp only [Option.getD_some]
    rw [if_neg (by omega), if_neg (by omega), if_pos hneg]
  · have h1 : paddedImg img pad = img := by
      unfold paddedImg
      rw [if_neg (by omega)]
    unfold resize_to_box
    simp only [Option.getD_some]
    rw [if_neg (by omega), if_pos]
    rw [h1]
    exact hw

/-- Witness for the amended C4: a no-op with an absent width and another
with a zero height, a `ValueError` for a negative width and another for a
negative height, and a `ZeroDivisionError` for a zero-width source and
another for a zero-height source. -/
theorem resize_to_box_invalid_inputs_witness :
    resize_to_box wResample wSrc none (some 7) "contain" 0 = .ok wSrc ∧
    resize_to_box wResample wSrc (some 7) (some 0) "contain" 0 = .ok wSrc ∧
    resize_to_box wResample wSrc (some (-3)) (some 5) "contain" 0 =
      .error .valueError ∧
    resize_to_box wResample wSrc (some 3) (some (-5)) "contain" 0 =
      .error .valueError ∧
    resize_to_box wResample wEmpty (some 3) (some 5) "contain" 0 =
      .error .zeroDivisionError ∧
    resize_to_box wResample wEmptyH (some 3) (some 5) "contain" 0 =
      .error .zeroDivisionError := by
  refine ⟨?_, ?_, ?_, ?_, ?_, ?_⟩
  · exact (resize_to_box_invalid_inputs wResample wSrc 0 0 "contain" 0).1
      none (some 7) (Or.inl rfl)
  · exact (resize_to_box_invalid_inputs wResample wSrc 0 0 "contain" 0).1
      (some 7) (some 0) (Or.inr (Or.inr (Or.inr rfl)))
  · exact (resize_to_box_invalid_inputs wResample wSrc (-3) 5 "contain" 0).2.1
      (by decide) (by decide) (by decide) (by decide) (Or.inl (by decide))
  · exact (resize_to_box_invalid_inputs wResample wSrc 3 (-5) "contain" 0).2.1
      (by decide) (by decide) (by decide) (by decide) (Or.inr (by decide))
  · exact (resize_to_box_invalid_inputs wResample wEmpty 3 5 "contain" 0).2.2
      (Or.inl (by decide)) (by decide) (by decide) (by decide)
  · exact (resize_to_box_invalid_inputs wResample wEmptyH 3 5 "contain" 0).2.2
      (Or.inr (by decide)) (by decide) (by decide) (by decide)

/-- Claim C2: the scale factor is `max(tw/sw, th/sh)` in cover mode and
`min(tw/sw, th/sh)` in contain mode, and each resized dimension is
`max(1, round(src * scale))` where `round` picks a nearest integer
(`pyRound`, Python's `round`) and the result is floored at 1 pixel. -/
theorem fit_geometry_spec (img1 : Img) (tw th : Int) (mode : String) :
    (mode = "cover" →
      fitScale img1.width img1.height tw th mode =
        max ((tw : ℚ) / (img1.width : ℚ)) ((th : ℚ) / (img1.height : ℚ))) ∧
    (mode = "contain" →
      fitScale img1.width img1.height tw th mode =
        min ((tw : ℚ) / (img1.width : ℚ)) ((th : ℚ) / (img1.height : ℚ))) ∧
    fitNewW img1 tw th mode =
      max 1 (pyRound ((img1.width : ℚ) *
        fitScale img1.width img1.height tw th mode)) ∧
    fitNewH img1 tw th mode =
      max 1 (pyRound ((img1.height : ℚ) *
        fitScale img1.width img1.height tw th mode)) ∧
    (∀ m : ℤ,
      |(img1.width : ℚ) * fitScale img1.width img1.height tw th mode -
        (pyRound ((img1.width : ℚ) *
          fitScale img1.width img1.height tw th mode) : ℚ)| ≤
      |(img1.width : ℚ) * fitScale img1.width img1.height tw th mode -
        (m : ℚ)|) ∧
    (∀ m : ℤ,
      |(img1.height : ℚ) * fitScale img1.width img1.height tw th mode -
        (pyRound ((img1.height : ℚ) *
          fitScale img1.width img1.height tw th mode) : ℚ)| ≤
      |(img1.height : ℚ) * fitScale img1.width img1.height tw th mode -
        (m : ℚ)|) ∧
    1 ≤ fitNewW img1 tw th mode ∧ 1 ≤ fitNewH img1 tw th mode := by
  refine ⟨?_, ?_, rfl, rfl, fun m => pyRound_nearest _ m,
    fun m => pyRound_nearest _ m, one_le_fitDim _ _, one_le_fitDim _ _⟩
  · intro h
    subst h
    exact fitScale_cover _ _ _ _
  · intro h
    subst h
    exact fitScale_of_ne (by decide) _ _ _ _

/-- Witness for C2 at source 2×2, target 3×2: the cover scale is the max of
the two ratios and the resized width is at least 1. -/
theorem fit_geometry_spec_witness :
    fitScale wSrc.width wSrc.height 3 2 "cover" =
      max ((3 : ℚ) / (wSrc.width : ℚ)) ((2 : ℚ) / (wSrc.height : ℚ)) ∧
    1 ≤ fitNewW wSrc 3 2 "cover" :=
  ⟨(fit_geometry_spec wSrc 3 2 "cover").1 rfl,
   (fit_geometry_spec wSrc 3 2 "cover").2.2.2.2.2.2.1⟩

theorem cropImg_width (img : Img) (l u r b : Int) :
    (cropImg img l u r b).width = (r - l).toNat := rfl

theorem cropImg_height (img : Img) (l u r b : Int) :
    (cropImg img l u r b).height = (b - u).toNat := rfl

/-- When the resized image is at least target-sized in both directions, the
cover composition crops to exactly the target size and pastes at `(0, 0)`. -/
theorem coverCompose_offsets_zero (tw th new_w new_h : Int) (i : Img)
    (htw : 0 ≤ tw) (hth : 0 ≤ th) (h1 : tw ≤ new_w) (h2 : th ≤ new_h) :
    ∃ cropped, coverCompose tw th new_w new_h i =
        pasteMask (Img.new tw.toNat th.toNat) cropped 0 0 ∧
      cropped.width = tw.toNat ∧ cropped.height = th.toNat := by
  refine ⟨cropImg i
      (if new_w > tw then (new_w - tw).fdiv 2 else 0)
      (if new_h > th then (new_h - th).fdiv 2 else 0)
      ((if new_w > tw then (new_w - tw).fdiv 2 else 0) + min tw new_w)
      ((if new_h > th then (new_h - th).fdiv 2 else 0) + min th new_h),
    ?_, ?_, ?_⟩
  · unfold coverCompose
    rw [cropImg_width, cropImg_height, add_sub_cancel_left,
      add_sub_cancel_left, min_eq_left h1, min_eq_left h2,
      Int.toNat_of_nonneg htw, Int.toNat_of_nonneg hth, sub_self, sub_self,
      Int.zero_fdiv]
  · rw [cropImg_width, add_sub_cancel_left, min_eq_left h1]
  · rw [cropImg_height, add_sub_cancel_left, min_eq_left h2]

/-- Claim C6: in cover mode with positive source and targets, the cropped
image has exactly the target dimensions and is pasted at offset `(0, 0)`,
so the pasted region covers every canvas pixel. -/
theorem resize_to_box_cover_fills
    (resample : Img → Nat → Nat → Nat → Nat → RGBA) (img : Img)
    (tw th : Int) (pad : Int) (htw : 0 < tw) (hth : 0 < th)
    (hw : 0 < img.width) (hh : 0 < img.height) :
    ∃ cropped, resize_to_box resample img (some tw) (some th) "cover" pad =
        .ok (pasteMask (Img.new tw.toNat th.toNat) cropped 0 0) ∧
      cropped.width = tw.toNat ∧ cropped.height = th.toNat := by
  have h1 := paddedImg_width_pos img pad hw
  have h2 := paddedImg_height_pos img pad hh
  have hle1 : tw ≤ fitNewW (paddedImg img pad) tw th "cover" :=
    tw_le_fitNewW_cover _ _ _ h1
  have hle2 : th ≤ fitNewH (paddedImg img pad) tw th "cover" :=
    th_le_fitNewH_cover _ _ _ h2
  obtain ⟨cropped, heq, hcw, hch⟩ := coverCompose_offsets_zero tw th
    (fitNewW (paddedImg img pad) tw th "cover")
    (fitNewH (paddedImg img pad) tw th "cover")
    (fitResized resample (paddedImg img pad) tw th "cover")
    htw.le hth.le hle1 hle2
  refine ⟨cropped, ?_, hcw, hch⟩
  unfold resize_to_box
  rw [if_pos (rfl : ("cover" : String) = "cover")]
  simp only [Option.getD_some]
  rw [if_neg (by omega), if_neg (by omega), if_neg (by omega), heq]

/-- Witness for C6: source 2×2, target 3×2, cover, pad 0. -/
theorem resize_to_box_cover_fills_witness :
    ∃ cropped, resize_to_box wResample wSrc (some 3) (some 2) "cover" 0 =
        .ok (pasteMask (Img.new (3 : Int).toNat (2 : Int).toNat) cropped 0 0) ∧
      cropped.width = (3 : Int).toNat ∧ cropped.height = (2 : Int).toNat :=
  resize_to_box_cover_fills wResample wSrc 3 2 0 (by decide) (by decide)
    (by decide) (by decide)

/-- Claim C7: in contain mode with positive source and targets, the resized
image is at most target-sized, the centered paste offsets are nonnegative,
and the whole scaled bounding box lies inside the canvas. -/
theorem resize_to_box_contain_no_crop
    (resample : Img → Nat → Nat → Nat → Nat → RGBA) (img : Img)
    (tw th : Int) (pad : Int) (htw : 0 < tw) (hth : 0 < th)
    (hw : 0 < img.width) (hh : 0 < img.height) :
    ∃ resized cx cy,
      resize_to_box resample img (some tw) (some th) "contain" pad =
        .ok (pasteMask (Img.new tw.toNat th.toNat) resized cx cy) ∧
      (resized.width : Int) ≤ tw ∧ (resized.height : Int) ≤ th ∧
      0 ≤ cx ∧ 0 ≤ cy ∧
      cx + (resized.width : Int) ≤ tw ∧ cy + (resized.height : Int) ≤ th := by
  have h1 := paddedImg_width_pos img pad hw
  have h2 := paddedImg_height_pos img pad hh
  have hle1 : fitNewW (paddedImg img pad) tw th "contain" ≤ tw :=
    fitNewW_le_of_ne_cover _ _ _ (by decide) h1 htw
  have hle2 : fitNewH (paddedImg img pad) tw th "contain" ≤ th :=
    fitNewH_le_of_ne_cover _ _ _ (by decide) h2 hth
  have hpos1 : 1 ≤ fitNewW (paddedImg img pad) tw th "contain" :=
    one_le_fitDim _ _
  have hpos2 : 1 ≤ fitNewH (paddedImg img pad) tw th "contain" :=
    one_le_fitDim _ _
  have hrw : ((fitResized resample (paddedImg img pad) tw th "contain").width : Int) =
      fitNewW (paddedImg img pad) tw th "contain" := by
    unfold fitResized
    rw [resizeImg_width, Int.toNat_of_nonneg (by omega)]
  have hrh : ((fitResized resample (paddedImg img pad) tw th "contain").height : Int) =
      fitNewH (paddedImg img pad) tw th "contain" := by
    unfold fitResized
    rw [resizeImg_height, Int.toNat_of_nonneg (by omega)]
  have hfdiv1 : (tw - fitNewW (paddedImg img pad) tw th "contain").fdiv 2 ≤
      tw - fitNewW (paddedImg img pad) tw th "contain" := by
    rw [Int.fdiv_eq_ediv _ (by omega)]
    exact Int.ediv_le_self _ (by omega)
  have hfdiv2 : (th - fitNewH (paddedImg img pad) tw th "contain").fdiv 2 ≤
      th - fitNewH (paddedImg img pad) tw th "contain" := by
    rw [Int.fdiv_eq_ediv _ (by omega)]
    exact Int.ediv_le_self _ (by omega)
  refine ⟨fitResized resample (paddedImg img pad) tw th "contain",
    (tw - fitNewW (paddedImg img pad) tw th "contain").fdiv 2,
    (th - fitNewH (paddedImg img pad) tw th "contain").fdiv 2,
    ?_, by omega, by omega,
    Int.fdiv_nonneg (by omega) (by omega),
    Int.fdiv_nonneg (by omega) (by omega),
    by omega, by omega⟩
  unfold resize_to_box
  rw [if_neg (by decide : ¬(("contain" : String) = "cover"))]
  simp only [Option.getD_some]
  rw [if_neg (by omega), if_neg (by omega), if_neg (by omega)]
  rfl

/-- Witness for C7: source 2×2, target 3×5, contain, pad 1. -/
theorem resize_to_box_contain_no_crop_witness :
    ∃ resized cx cy,
      resize_to_box wResample wSrc (some 3) (some 5) "contain" 1 =
        .ok (pasteMask (Img.new (3 : Int).toNat (5 : Int).toNat) resized cx cy) ∧
      (resized.width : Int) ≤ 3 ∧ (resized.height : Int) ≤ 5 ∧
      0 ≤ cx ∧ 0 ≤ cy ∧
      cx + (resized.width : Int) ≤ 3 ∧ cy + (resized.height : Int) ≤ 5 :=
  resize_to_box_contain_no_crop wResample wSrc 3 5 1 (by decide) (by decide)
    (by decide) (by decide)

/-! ### Idempotence (claim C9) -/

/-- A 1×1 source whose single pixel is half-transparent red. -/
def wHalf : Img := ⟨1, 1, fun _ _ => ⟨255, 0, 0, 128⟩⟩

theorem pasteMask_px_inside (canvas img : Img) (x y : Nat)
    (hx : (x : Int) < img.width) (hy : (y : Int) < img.height) :
    (pasteMask canvas img 0 0).px x y = blendPx (img.px x y) (canvas.px x y) := by
  show (if (0 : Int) ≤ (x : Int) ∧ (x : Int) < 0 + img.width ∧
       (0 : Int) ≤ (y : Int) ∧ (y : Int) < 0 + img.height then
      blendPx (img.px ((x : Int) - 0).toNat ((y : Int) - 0).toNat)
        (canvas.px x y)
    else canvas.px x y) = blendPx (img.px x y) (canvas.px x y)
  rw [if_pos ⟨by omega, by omega, by omega, by omega⟩]
  simp only [sub_zero, Int.toNat_natCast]

theorem cropImg_px_inside (img : Img) (r b : Int) (x y : Nat)
    (hx : (x : Int) < img.width) (hy : (y : Int) < img.height) :
    (cropImg img 0 0 r b).px x y = img.px x y := by
  show (if (0 : Int) + (x : Int) ≥ 0 ∧ 0 + (x : Int) < img.width ∧
       (0 : Int) + (y : Int) ≥ 0 ∧ 0 + (y : Int) < img.height then
      img.px ((0 : Int) + (x : Int)).toNat ((0 : Int) + (y : Int)).toNat
    else RGBA.clear) = img.px x y
  rw [if_pos ⟨by omega, by omega, by omega, by omega⟩]
  simp only [zero_add, Int.toNat_natCast]

/-- On an exactly target-sized source, any mode's scale factor is 1. -/
theorem fitScale_exact (c : Img) (tw th : Int) (mode : String)
    (htw : 0 < tw) (hth : 0 < th)
    (hcw : c.width = tw.toNat) (hch : c.height = th.toNat) :
    fitScale c.width c.height tw th mode = 1 := by
  have hw : (c.width : ℚ) = (tw : ℚ) := by
    rw [hcw]
    exact_mod_cast congrArg (fun z : ℤ => (z : ℚ)) (Int.toNat_of_nonneg htw.le)
  have hh : (c.height : ℚ) = (th : ℚ) := by
    rw [hch]
    exact_mod_cast congrArg (fun z : ℤ => (z : ℚ)) (Int.toNat_of_nonneg hth.le)
  have htw' : (tw : ℚ) ≠ 0 := Int.cast_ne_zero.mpr htw.ne'
  have hth' : (th : ℚ) ≠ 0 := Int.cast_ne_zero.mpr hth.ne'
  unfold fitScale
  rw [hw, hh, div_self htw', div_self hth']
  split
  · exact max_self 1
  · exact min_self 1

/-- On an exactly target-sized source, `new_w` is the target width. -/
theorem fitNewW_exact (c : Img) (tw th : Int) (mode : String)
    (htw : 0 < tw) (hth : 0 < th)
    (hcw : c.width = tw.toNat) (hch : c.height = th.toNat) :
    fitNewW c tw th mode = tw := by
  unfold fitNewW fitDim
  rw [fitScale_exact c tw th mode htw hth hcw hch, mul_one, pyRound_natCast,
    hcw, max_eq_right (by omega : (1 : ℤ) ≤ (tw.toNat : ℤ))]
  exact Int.toNat_of_nonneg htw.le

/-- On an exactly target-sized source, `new_h` is the target height. -/
theorem fitNewH_exact (c : Img) (tw th : Int) (mode : String)
    (htw : 0 < tw) (hth : 0 < th)
    (hcw : c.width = tw.toNat) (hch : c.height = th.toNat) :
    fitNewH c tw th mode = th := by
  unfold fitNewH fitDim
  rw [fitScale_exact c tw th mode htw hth hcw hch, mul_one, pyRound_natCast,
    hch, max_eq_right (by omega : (1 : ℤ) ≤ (th.toNat : ℤ))]
  exact Int.toNat_of_nonneg hth.le

/-- On an exactly target-sized source, the resize step is the identity
(Pillow's same-size shortcut). -/
theorem fitResized_exact (resample : Img → Nat → Nat → Nat → Nat → RGBA)
    (c : Img) (tw th : Int) (mode : String)
    (htw : 0 < tw) (hth : 0 < th)
    (hcw : c.width = tw.toNat) (hch : c.height = th.toNat) :
    fitResized resample c tw th mode = c := by
  unfold fitResized
  rw [fitNewW_exact c tw th mode htw hth hcw hch,
    fitNewH_exact c tw th mode htw hth hcw hch]
  unfold resizeImg
  rw [if_pos ⟨hcw, hch⟩]

/-- On an exactly target-sized source with `pad = 0` and `mode = "contain"`,
`resize_to_box` reduces to the alpha-masked paste of the source onto a
fresh transparent canvas at offset `(0, 0)`. -/
theorem resize_to_box_exact_size_contain
    (resample : Img → Nat → Nat → Nat → Nat → RGBA) (c : Img)
    (tw th : Int) (htw : 0 < tw) (hth : 0 < th)
    (hcw : c.width = tw.toNat) (hch : c.height = th.toNat) :
    resize_to_box resample c (some tw) (some th) "contain" 0 =
      .ok (pasteMask (Img.new tw.toNat th.toNat) c 0 0) := by
  unfold resize_to_box
  rw [if_neg (by decide : ¬(("contain" : String) = "cover"))]
  simp only [Option.getD_some]
  rw [show paddedImg c 0 = c from rfl]
  rw [if_neg (by omega), if_neg (by omega : ¬(c.width = 0 ∨ c.height = 0)),
    if_neg (by omega)]
  rw [fitNewW_exact c tw th "contain" htw hth hcw hch,
    fitNewH_exact c tw th "contain" htw hth hcw hch,
    fitResized_exact resample c tw th "contain" htw hth hcw hch]
  unfold containCompose
  rw [sub_self, sub_self, Int.zero_fdiv]

/-- Counterexample to C9 as stated: on a 1×1 canvas the second application
has scale 1 and offset (0, 0), yet the alpha-masked paste blends each
partially transparent pixel with the fresh transparent canvas, so the
canvas changes.  First application of the half-transparent red 1×1 source:
pixel `(128, 0, 0, 64)`; second application on that output:
pixel `(32, 0, 0, 16)` — not the same canvas. -/
theorem resize_to_box_not_idempotent :
    (resize_to_box wResample wHalf (some 1) (some 1) "contain" 0).map
        (fun c => c.px 0 0) = .ok ⟨128, 0, 0, 64⟩ ∧
    ((resize_to_box wResample wHalf (some 1) (some 1) "contain" 0).bind
        (fun c => resize_to_box wResample c (some 1) (some 1) "contain" 0)).map
        (fun c => c.px 0 0) = .ok ⟨32, 0, 0, 16⟩ := by
  have h1 : resize_to_box wResample wHalf (some 1) (some 1) "contain" 0 =
      .ok (pasteMask (Img.new 1 1) wHalf 0 0) :=
    resize_to_box_exact_size_contain wResample wHalf 1 1 (by decide)
      (by decide) rfl rfl
  have hpx1 : (pasteMask (Img.new 1 1) wHalf 0 0).px 0 0 =
      (⟨128, 0, 0, 64⟩ : RGBA) := by
    rw [pasteMask_px_inside _ _ 0 0 (by decide) (by decide)]
    decide
  have h2 : resize_to_box wResample (pasteMask (Img.new 1 1) wHalf 0 0)
      (some 1) (some 1) "contain" 0 =
      .ok (pasteMask (Img.new 1 1) (pasteMask (Img.new 1 1) wHalf 0 0) 0 0) :=
    resize_to_box_exact_size_contain wResample _ 1 1 (by decide) (by decide)
      rfl rfl
  have hpx2 : (pasteMask (Img.new 1 1) (pasteMask (Img.new 1 1) wHalf 0 0)
      0 0).px 0 0 = (⟨32, 0, 0, 16⟩ : RGBA) := by
    rw [pasteMask_px_inside _ _ 0 0 (by decide) (by decide), hpx1]
    decide
  constructor
  · rw [h1]
    show Except.ok ((pasteMask (Img.new 1 1) wHalf 0 0).px 0 0) =
      Except.ok (⟨128, 0, 0, 64⟩ : RGBA)
    rw [hpx1]
  · rw [h1]
    show (resize_to_box wResample (pasteMask (Img.new 1 1) wHalf 0 0)
        (some 1) (some 1) "contain" 0).map (fun c => c.px 0 0) =
      Except.ok (⟨32, 0, 0, 16⟩ : RGBA)
    rw [h2]
    show Except.ok ((pasteMask (Img.new 1 1)
        (pasteMask (Img.new 1 1) wHalf 0 0) 0 0).px 0 0) =
      Except.ok (⟨32, 0, 0, 16⟩ : RGBA)
    rw [hpx2]

/-- The binary-alpha wellformedness used in the amended C9: every meaningful
pixel is either the transparent black pixel or fully opaque with byte-range
channels. -/
def Img.BinaryAlpha (c : Img) : Prop :=
  ∀ x < c.width, ∀ y < c.height,
    c.px x y = RGBA.clear ∨
    ((c.px x y).a = 255 ∧ (c.px x y).r ≤ 255 ∧ (c.px x y).g ≤ 255 ∧
      (c.px x y).b ≤ 255)

theorem coverCompose_self_equiv (tw th : Int) (c : Img)
    (htw : 0 < tw) (hth : 0 < th)
    (hcw : c.width = tw.toNat) (hch : c.height = th.toNat)
    (hbin : c.BinaryAlpha) :
    Img.Equiv (coverCompose tw th tw th c) c := by
  unfold coverCompose
  rw [if_neg (lt_irrefl tw), if_neg (lt_irrefl th), min_self, min_self,
    zero_add, zero_add, cropImg_width, cropImg_height, sub_zero, sub_zero,
    Int.toNat_of_nonneg htw.le, Int.toNat_of_nonneg hth.le, sub_self,
    sub_self, Int.zero_fdiv]
  refine ⟨hcw.symm, hch.symm, ?_⟩
  intro x hx y hy
  have hx2 : x < tw.toNat := hx
  have hy2 : y < th.toNat := hy
  have hcx : (x : Int) < ((cropImg c 0 0 tw th).width : Int) := by
    rw [cropImg_width, sub_zero]
    omega
  have hcy : (y : Int) < ((cropImg c 0 0 tw th).height : Int) := by
    rw [cropImg_height, sub_zero]
    omega
  rw [pasteMask_px_inside _ _ x y hcx hcy,
    cropImg_px_inside c tw th x y (by omega) (by omega)]
  exact blendPx_clear_of_opaque_or_clear (hbin x (by omega) y (by omega))

theorem containCompose_self_equiv (tw th : Int) (c : Img)
    (hcw : c.width = tw.toNat) (hch : c.height = th.toNat)
    (hbin : c.BinaryAlpha) :
    Img.Equiv (containCompose tw th tw th c) c := by
  unfold containCompose
  rw [sub_self, sub_self, Int.zero_fdiv]
  refine ⟨hcw.symm, hch.symm, ?_⟩
  intro x hx y hy
  have hx2 : x < tw.toNat := hx
  have hy2 : y < th.toNat := hy
  rw [pasteMask_px_inside _ _ x y (by omega) (by omega)]
  exact blendPx_clear_of_opaque_or_clear (hbin x (by omega) y (by omega))

/-- Claim C9, amended: `resize_to_box` is idempotent for fixed target
dimensions only in the restricted sense that the second call uses `pad = 0`
and the first output's meaningful pixels are binary-alpha (fully opaque
byte-range pixels or transparent black): then the target-sized input gets
scale 1 and zero offsets, and the masked paste reproduces every meaningful
pixel.  Without those restrictions a second application alters the canvas:
`pad > 0` rescales the content, and the alpha-masked paste darkens every
partially transparent pixel (see the counterexample). -/
theorem resize_to_box_idempotent_binary_alpha
    (resample : Img → Nat → Nat → Nat → Nat → RGBA) (c : Img)
    (tw th : Int) (mode : String) (htw : 0 < tw) (hth : 0 < th)
    (hcw : c.width = tw.toNat) (hch : c.height = th.toNat)
    (hbin : c.BinaryAlpha) :
    ∃ out, resize_to_box resample c (some tw) (some th) mode 0 = .ok out ∧
      Img.Equiv out c := by
  unfold resize_to_box
  simp only [Option.getD_some]
  rw [show paddedImg c 0 = c from rfl]
  rw [if_neg (by omega), if_neg (by omega : ¬(c.width = 0 ∨ c.height = 0)),
    if_neg (by omega)]
  rw [fitNewW_exact c tw th mode htw hth hcw hch,
    fitNewH_exact c tw th mode htw hth hcw hch,
    fitResized_exact resample c tw th mode htw hth hcw hch]
  by_cases hmode : mode = "cover"
  · rw [if_pos hmode]
    exact ⟨_, rfl, coverCompose_self_equiv tw th c htw hth hcw hch hbin⟩
  · rw [if_neg hmode]
    exact ⟨_, rfl, containCompose_self_equiv tw th c hcw hch hbin⟩

/-- Witness for the amended C9: the opaque 2×2 source is already a valid
2×2 canvas; a second application with the same targets leaves it unchanged
on every meaningful pixel. -/
theorem resize_to_box_idempotent_binary_alpha_witness :
    ∃ out, resize_to_box wResample wSrc (some 2) (some 2) "contain" 0 =
        .ok out ∧ Img.Equiv out wSrc :=
  resize_to_box_idempotent_binary_alpha wResample wSrc 2 2 "contain"
    (by decide) (by decide) rfl rfl
    (fun x _ y _ => Or.inr ⟨rfl, (by decide : (10 : Nat) ≤ 255),
      (by decide : (20 : Nat) ≤ 255), (by decide : (30 : Nat) ≤ 255)⟩)

end Cutout
